import Mathlib

/-!
Shallow embedding of `apps/docuralis/scripts/migrate_qdrant_chunks.py`:
a producer/worker migration pipeline copying Qdrant vector points into
PostgreSQL `DocumentChunk` rows.

External effects are modelled by explicit parameters:
* the Qdrant scroll endpoint is an `outcome` function giving the result of
  each HTTP attempt;
* the PostgreSQL document lookup is a `lookup : String → Option Doc`
  function (the result of `get_documents_by_filenames` for a batch);
* the idempotent batched insert (`execute_batch` + `commit`, with
  `rollback` on exception) is an all-or-nothing step whose success is an
  `insert_ok : String → Bool` oracle keyed by the group's filename; the
  rows it commits are returned explicitly so that "what was written" is
  observable;
* `uuid`-based chunk-id generation is a `gen : Nat → String` parameter;
* threads are flattened into a sequential schedule: the producer's enqueue
  order is a list of queue items and a worker consumes a list of dequeued
  items.  The claims proved below are schedule-independent statements
  about counters, enqueued sentinels and written rows.
The interrupt event (`stop_event`) is only set on KeyboardInterrupt or a
fatal orchestrator error; the runs modelled here are uninterrupted runs,
so the `while not stop_event.is_set()` guards are always taken.
-/

namespace MigrateQdrantChunks

/-- Configuration constants of the script. -/
def VECTOR_BATCH_SIZE : Nat := 5000

/-- `NUM_THREADS = 20`: number of parallel worker threads. -/
def NUM_THREADS : Nat := 20

/-- `QUEUE_SIZE = 30`: max batches in memory. -/
def QUEUE_SIZE : Nat := 30

/-- `MAX_RETRIES = 3`: retry ceiling for failed operations. -/
def MAX_RETRIES : Nat := 3

/-- Base backoff delay in seconds: the script sleeps `1 * (attempt + 1)`. -/
def BASE_DELAY : Nat := 1

/-- Payload of one Qdrant point (old format: `filename`, `chunk_index`,
`page_number`, `combined`).  Every field can be absent from the dict. -/
structure Payload where
  filename : Option String
  chunk_index : Option Nat
  combined : Option String
  page_number : Option Int
deriving DecidableEq, Repr

/-- One Qdrant point: `{id, payload}`. -/
structure QdrantPoint where
  id : String
  payload : Payload
deriving DecidableEq, Repr

/-- A PostgreSQL `Document` row as returned by `get_documents_by_filenames`. -/
structure Doc where
  id : String
  originalName : String
  collectionId : String
deriving DecidableEq, Repr

/-- The `MigrationStats` counters (the lock is a concurrency artefact; the
counter fields are the state). -/
structure MigrationStats where
  vectors_processed : Nat := 0
  documents_processed : Nat := 0
  chunks_created : Nat := 0
  skipped_no_doc : Nat := 0
  errors : Nat := 0
  total_vectors : Nat := 0
  batches_fetched : Nat := 0
  batches_processed : Nat := 0
deriving DecidableEq, Repr

def MigrationStats.add_batch_fetched (s : MigrationStats) : MigrationStats :=
  { s with batches_fetched := s.batches_fetched + 1 }

def MigrationStats.add_batch_processed (s : MigrationStats) : MigrationStats :=
  { s with batches_processed := s.batches_processed + 1 }

def MigrationStats.add_vectors (s : MigrationStats) (count : Nat) : MigrationStats :=
  { s with vectors_processed := s.vectors_processed + count }

def MigrationStats.add_chunks (s : MigrationStats) (count : Nat) : MigrationStats :=
  { s with chunks_created := s.chunks_created + count }

def MigrationStats.add_documents (s : MigrationStats) (count : Nat) : MigrationStats :=
  { s with documents_processed := s.documents_processed + count }

def MigrationStats.add_skipped (s : MigrationStats) (count : Nat) : MigrationStats :=
  { s with skipped_no_doc := s.skipped_no_doc + count }

def MigrationStats.add_error (s : MigrationStats) : MigrationStats :=
  { s with errors := s.errors + 1 }

/-- Python truthiness of `payload.get('filename')` as used by the worker's
`if not filename: continue`: the filename is resolvable exactly when the key
is present and the string is non-empty. -/
def resolvedFilename (p : Payload) : Option String :=
  match p.filename with
  | none => none
  | some f => if f = "" then none else some f

/-- `len(content.split())`: number of maximal runs of non-whitespace
characters.  `inWord` records whether the previous character was part of a
word (so a new word is counted only on a whitespace→non-whitespace edge). -/
def countWordsAux : List Char → Bool → Nat
  | [], _ => 0
  | c :: cs, inWord =>
    if c.isWhitespace then countWordsAux cs false
    else (if inWord then 0 else 1) + countWordsAux cs true

/-- Word count of a content string, as Python `len(content.split())`. -/
def wordCount (s : String) : Nat := countWordsAux s.data false

/-- The stored token estimate `int(len(content.split()) * 1.3)`.  Python
`int()` truncates toward zero, so on the exact product this is
`⌊13·n / 10⌋`, i.e. `Nat` division.  (The float product `n * 1.3` agrees
with the exact rational for all realistic word counts.) -/
def tokenCount (content : String) : Nat := 13 * wordCount content / 10

/-- One row destined for `DocumentChunk` — the tuple built by the worker:
`(chunk_id, doc_id, chunk_index, content, page_number, page_number,
vector_id, int(len(content.split()) * 1.3))`. -/
structure ChildRow where
  id : String
  documentId : String
  chunkIndex : Nat
  content : String
  startPage : Option Int
  endPage : Option Int
  vectorId : String
  tokenCount : Nat
deriving DecidableEq, Repr

/-- Build the chunk tuple for one vector:
`chunk_index = payload.get('chunk_index', 0)`,
`content = payload.get('combined', '')`,
`page_number = payload.get('page_number')` used for both page fields. -/
def buildChunk (chunk_id : String) (doc_id : String) (v : QdrantPoint) : ChildRow :=
  { id := chunk_id
    documentId := doc_id
    chunkIndex := v.payload.chunk_index.getD 0
    content := v.payload.combined.getD ""
    startPage := v.payload.page_number
    endPage := v.payload.page_number
    vectorId := v.id
    tokenCount := tokenCount (v.payload.combined.getD "") }

/-- The `chunks_to_create` list for one filename group, with generated ids. -/
def buildChunks (gen : Nat → String) (doc_id : String) (vs : List QdrantPoint) :
    List ChildRow :=
  vs.mapIdx fun i v => buildChunk (gen i) doc_id v

/-- Python `str.lower()` (ASCII case folding), as applied to the
confirmation input. -/
def strLower (s : String) : String := ⟨s.data.map Char.toLower⟩

/-- Append point `v` to the group keyed `f`, creating the group at the end
if absent — the effect of `vectors_by_filename[filename].append(vector)`
on an insertion-ordered dict. -/
def insertGroup (groups : List (String × List QdrantPoint)) (f : String)
    (v : QdrantPoint) : List (String × List QdrantPoint) :=
  match groups with
  | [] => [(f, [v])]
  | (k, vs) :: rest =>
    if k = f then (k, vs ++ [v]) :: rest else (k, vs) :: insertGroup rest f v

/-- One iteration of the grouping loop: a point without a resolvable
filename is dropped (`continue`) without touching any counter; otherwise
it is appended to its filename's group. -/
def groupStep (acc : List (String × List QdrantPoint)) (v : QdrantPoint) :
    List (String × List QdrantPoint) :=
  match resolvedFilename v.payload with
  | none => acc
  | some f => insertGroup acc f v

/-- `vectors_by_filename`: group the batch's points by resolvable filename,
preserving encounter order. -/
def groupByFilename (points : List QdrantPoint) : List (String × List QdrantPoint) :=
  points.foldl groupStep []

/-- Process one filename group (the body of
`for filename, file_vectors in vectors_by_filename.items()`).  Returns the
updated stats and the rows committed for this group (empty on skip, on
dry run, and on rollback — the transaction is all-or-nothing). -/
def processGroup (dry_run : Bool) (lookup : String → Option Doc)
    (insert_ok : String → Bool) (gen : Nat → String) (stats : MigrationStats)
    (g : String × List QdrantPoint) : MigrationStats × List ChildRow :=
  match lookup g.1 with
  | none => ((stats.add_skipped g.2.length).add_vectors g.2.length, [])
  | some doc =>
    let chunks_to_create := buildChunks gen doc.id g.2
    let step :=
      if !dry_run && !chunks_to_create.isEmpty then
        if insert_ok g.1 then (stats.add_chunks chunks_to_create.length, chunks_to_create)
        else (stats.add_error, [])
      else (stats, [])
    ((step.1.add_documents 1).add_vectors g.2.length, step.2)

/-- Iterate `processGroup` over the groups of a batch in order, threading
the stats and concatenating the written rows. -/
def processGroups (dry_run : Bool) (lookup : String → Option Doc)
    (insert_ok : String → Bool) (gen : Nat → String) :
    MigrationStats → List (String × List QdrantPoint) → MigrationStats × List ChildRow
  | stats, [] => (stats, [])
  | stats, g :: rest =>
    let r := processGroup dry_run lookup insert_ok gen stats g
    let q := processGroups dry_run lookup insert_ok gen r.1 rest
    (q.1, r.2 ++ q.2)

/-- Process one dequeued batch: group by filename, look the filenames up
once, process every filename group, then `stats.add_batch_processed()`. -/
def processBatch (dry_run : Bool) (lookup : String → Option Doc)
    (insert_ok : String → Bool) (gen : Nat → String) (stats : MigrationStats)
    (points : List QdrantPoint) : MigrationStats × List ChildRow :=
  let r := processGroups dry_run lookup insert_ok gen stats (groupByFilename points)
  (r.1.add_batch_processed, r.2)

/-- A queue element: a numbered batch of points, or the `None` poison pill. -/
inductive QItem where
  | batch (batch_num : Nat) (points : List QdrantPoint)
  | sentinel
deriving DecidableEq, Repr

def QItem.isSentinel : QItem → Bool
  | QItem.sentinel => true
  | _ => false

/-- Number of sentinels in a list of queue items. -/
def sentinelCount (items : List QItem) : Nat := items.countP QItem.isSentinel

/-- The worker's dequeue loop over its stream of dequeued items: process
batches until the first sentinel; return the final stats, all rows this
worker committed, and the number of sentinels it consumed. -/
def worker_thread (dry_run : Bool) (lookup : String → Option Doc)
    (insert_ok : String → Bool) (gen : Nat → String) :
    MigrationStats → List QItem → MigrationStats × List ChildRow × Nat
  | stats, [] => (stats, [], 0)
  | stats, QItem.sentinel :: _ => (stats, [], 1)
  | stats, QItem.batch _n pts :: rest =>
    let r := processBatch dry_run lookup insert_ok gen stats pts
    let rec_ := worker_thread dry_run lookup insert_ok gen r.1 rest
    (rec_.1, r.2 ++ rec_.2.1, rec_.2.2)

/-- Result of one HTTP attempt inside `qdrant_scroll`. -/
inductive FetchAttempt where
  | success (points : List QdrantPoint) (next_offset : Option String)
  | failure
deriving DecidableEq, Repr

/-- Observable outcome of one `qdrant_scroll` call: its returned value or
propagated error, the sleeps performed between attempts, and how many
attempts were made. -/
structure ScrollResult where
  result : Except Unit (List QdrantPoint × Option String)
  sleeps : List Nat
  attempts_used : Nat
deriving Repr

/-- `for attempt in range(retries)` of `qdrant_scroll`, structurally
recursive on the number of remaining iterations (`left` plus `attempt`
always equals `retries` at the call sites).  On failure of the last
attempt (`attempt == retries - 1`) the exception is re-raised; otherwise
the loop sleeps `1 * (attempt + 1)` seconds and retries.  `outcome i` is
the result of the `i`-th HTTP attempt. -/
def scrollGo (outcome : Nat → FetchAttempt) (retries : Nat) :
    Nat → Nat → ScrollResult
  | 0, _attempt => { result := Except.ok ([], none), sleeps := [], attempts_used := 0 }
  | left + 1, attempt =>
    match outcome attempt with
    | FetchAttempt.success pts next =>
      { result := Except.ok (pts, next), sleeps := [], attempts_used := 1 }
    | FetchAttempt.failure =>
      if attempt = retries - 1 then
        { result := Except.error (), sleeps := [], attempts_used := 1 }
      else
        let r := scrollGo outcome retries left (attempt + 1)
        { result := r.result
          sleeps := BASE_DELAY * (attempt + 1) :: r.sleeps
          attempts_used := r.attempts_used + 1 }

/-- One `qdrant_scroll(...)` call with `retries` total attempts. -/
def qdrant_scroll (outcome : Nat → FetchAttempt) (retries : Nat) : ScrollResult :=
  scrollGo outcome retries retries 0

/-- Observable outcome of one producer run: the items it enqueued in
order, the number of `add_error` calls, and the error messages printed. -/
structure ProducerOut where
  enqueued : List QItem
  errors_added : Nat
  logs : List String
deriving Repr

/-- The producer's pagination loop.  `fetch call` is the result of the
`call`-th `qdrant_scroll` invocation (`Except.error` models the exception
re-raised after retry exhaustion).  `fuel` bounds the number of loop
iterations so the model is total; every terminating run of the script is
a run with sufficient fuel. -/
def producerLoop (fetch : Nat → Except Unit (List QdrantPoint × Option String)) :
    Nat → Nat → ProducerOut
  | 0, _call => { enqueued := [], errors_added := 0, logs := [] }
  | fuel + 1, call =>
    match fetch call with
    | Except.error _ =>
      { enqueued := [], errors_added := 1, logs := ["Producer error"] }
    | Except.ok (points, next_offset) =>
      if points.isEmpty then { enqueued := [], errors_added := 0, logs := [] }
      else
        match next_offset with
        | none =>
          { enqueued := [QItem.batch (call + 1) points], errors_added := 0, logs := [] }
        | some _ =>
          let r := producerLoop fetch fuel (call + 1)
          { enqueued := QItem.batch (call + 1) points :: r.enqueued
            errors_added := r.errors_added
            logs := r.logs }

/-- `producer_thread`: run the pagination loop, then — in the `finally`
block, so on normal exit and on fetch error alike — enqueue one sentinel
(`None`) per worker thread. -/
def producer_thread (fetch : Nat → Except Unit (List QdrantPoint × Option String))
    (fuel : Nat) (num_threads : Nat) : ProducerOut :=
  let r := producerLoop fetch fuel 0
  { r with enqueued := r.enqueued ++ List.replicate num_threads QItem.sentinel }

/-- The live-mode confirmation gate of `main`: when not in dry run, read a
line and abort unless `response.lower() == 'yes'`.  Returns `true` when the
run proceeds. -/
def confirmInput (dry_run : Bool) (inp : String) : Bool :=
  dry_run || (strLower inp == "yes")

/-- The final dry-run console note printed by `main`. -/
def dryRunNote (dry_run : Bool) : Option String :=
  if dry_run then some "This was a DRY RUN. No changes were made." else none

/-- Observable outcome of one `main` run: process exit code, number of
threads started, rows committed to the destination, and the final
dry-run console note. -/
structure MainResult where
  exit_code : Nat
  threads_started : Nat
  written : List ChildRow
  final_note : Option String
deriving Repr

/-- `main`, flattened to a single-consumer schedule: confirmation gate,
then producer run, then one worker draining the whole queue.  When the
gate refuses, `main` returns before connecting to PostgreSQL or starting
any thread, and the process exits 0. -/
def main (dry_run : Bool) (inp : String)
    (fetch : Nat → Except Unit (List QdrantPoint × Option String)) (fuel : Nat)
    (lookup : String → Option Doc) (insert_ok : String → Bool)
    (gen : Nat → String) : MainResult :=
  if confirmInput dry_run inp = false then
    { exit_code := 0, threads_started := 0, written := [], final_note := none }
  else
    let prod := producer_thread fetch fuel NUM_THREADS
    let r := worker_thread dry_run lookup insert_ok gen {} prod.enqueued
    { exit_code := 0
      threads_started := NUM_THREADS + 1
      written := r.2.1
      final_note := dryRunNote dry_run }

/-! ### Counting helpers used to state the accounting claims -/

/-- Keys of a group list, in order. -/
def keys (groups : List (String × List QdrantPoint)) : List String :=
  groups.map Prod.fst

/-- Total size of the groups whose key satisfies `p`. -/
def groupWeight (p : String → Bool) (groups : List (String × List QdrantPoint)) : Nat :=
  (groups.map fun g => if p g.1 then g.2.length else 0).sum

/-- Number of points with a resolvable filename satisfying `p`. -/
def countResolvableP (p : String → Bool) (points : List QdrantPoint) : Nat :=
  (points.filter fun v =>
    match resolvedFilename v.payload with
    | some f => p f
    | none => false).length

/-- Number of records in a batch with a resolvable filename. -/
def resolvableCount (points : List QdrantPoint) : Nat :=
  countResolvableP (fun _ => true) points

/-- Number of records in a batch whose filename matched a parent document. -/
def matchedRecordCount (lookup : String → Option Doc) (points : List QdrantPoint) : Nat :=
  countResolvableP (fun f => (lookup f).isSome) points

/-- The rows committed for one group; `processGroup`'s written component
does not depend on the incoming stats, so it is a function of the group. -/
def groupWritten (dry_run : Bool) (lookup : String → Option Doc)
    (insert_ok : String → Bool) (gen : Nat → String)
    (g : String × List QdrantPoint) : List ChildRow :=
  (processGroup dry_run lookup insert_ok gen {} g).2

/-- The token estimate as the SPEC words it (refinement target, not the
code): `round(wordCount(content) × 1.3)`, exact rational rounding. -/
def tokenCountSpecRound (content : String) : ℤ :=
  round ((wordCount content : ℚ) * (13 / 10))

/-! ### Concrete sample data for counterexamples and witnesses -/

/-- A point whose payload has no resolvable filename. -/
def pNoName : QdrantPoint := ⟨"v0", ⟨none, none, none, none⟩⟩

/-- A point for file `a.pdf` with three words of content. -/
def pA : QdrantPoint := ⟨"v1", ⟨some "a.pdf", some 0, some "a b c", none⟩⟩

/-- A second point for file `b.pdf`. -/
def pB : QdrantPoint := ⟨"v2", ⟨some "b.pdf", some 1, some "hello world", some 4⟩⟩

/-- A point with a resolvable filename but no `chunk_index` and no
`combined` content. -/
def pDefaults : QdrantPoint := ⟨"v3", ⟨some "c.pdf", none, none, none⟩⟩

/-- A lookup under which every filename matches a parent document. -/
def lookupAll : String → Option Doc :=
  fun f => some ⟨"doc_" ++ f, f, "cmhxblm5p00018001iwvrwdxq"⟩

/-! ## Helper lemmas -/

@[simp] theorem groupWeight_nil (p : String → Bool) : groupWeight p [] = 0 := rfl

@[simp] theorem groupWeight_cons (p : String → Bool) (g : String × List QdrantPoint)
    (rest : List (String × List QdrantPoint)) :
    groupWeight p (g :: rest) = (if p g.1 then g.2.length else 0) + groupWeight p rest := by
  simp [groupWeight]

theorem groupWeight_insertGroup (p : String → Bool) (f : String) (v : QdrantPoint) :
    ∀ groups, groupWeight p (insertGroup groups f v)
      = groupWeight p groups + (if p f then 1 else 0) := by
  intro groups
  induction groups with
  | nil => by_cases hp : p f <;> simp [insertGroup, hp]
  | cons g rest ih =>
    obtain ⟨k, vs⟩ := g
    by_cases h : k = f
    · subst h
      by_cases hp : p k <;> simp [insertGroup, hp] <;> omega
    · simp [insertGroup, h, ih]
      omega

@[simp] theorem countResolvableP_nil (p : String → Bool) : countResolvableP p [] = 0 := rfl

theorem countResolvableP_cons (p : String → Bool) (v : QdrantPoint) (pts : List QdrantPoint) :
    countResolvableP p (v :: pts)
      = (match resolvedFilename v.payload with
          | some f => if p f then 1 else 0
          | none => 0) + countResolvableP p pts := by
  unfold countResolvableP
  rw [List.filter_cons]
  cases h : resolvedFilename v.payload with
  | none => simp [h]
  | some f => by_cases hp : p f <;> simp [h, hp] <;> omega

theorem countResolvableP_congr (p q : String → Bool) (hpq : ∀ f, p f = q f)
    (points : List QdrantPoint) : countResolvableP p points = countResolvableP q points := by
  have : p = q := funext hpq
  rw [this]

theorem countResolvableP_not_add (p : String → Bool) (points : List QdrantPoint) :
    countResolvableP (fun f => !p f) points + countResolvableP p points
      = resolvableCount points := by
  unfold resolvableCount
  induction points with
  | nil => simp
  | cons v pts ih =>
    rw [countResolvableP_cons, countResolvableP_cons, countResolvableP_cons]
    cases h : resolvedFilename v.payload with
    | none => simpa using ih
    | some f => by_cases hp : p f <;> simp [hp] <;> omega

theorem groupWeight_foldl (p : String → Bool) :
    ∀ (points : List QdrantPoint) (acc : List (String × List QdrantPoint)),
      groupWeight p (points.foldl groupStep acc)
        = groupWeight p acc + countResolvableP p points := by
  intro points
  induction points with
  | nil => intro acc; simp
  | cons v pts ih =>
    intro acc
    rw [List.foldl_cons, ih, countResolvableP_cons]
    unfold groupStep
    cases h : resolvedFilename v.payload with
    | none => simp
    | some f =>
      rw [groupWeight_insertGroup]
      by_cases hp : p f <;> simp [hp] <;> omega

theorem groupWeight_groupByFilename (p : String → Bool) (points : List QdrantPoint) :
    groupWeight p (groupByFilename points) = countResolvableP p points := by
  unfold groupByFilename
  rw [groupWeight_foldl]
  simp

@[simp] theorem buildChunks_length (gen : Nat → String) (doc_id : String)
    (vs : List QdrantPoint) : (buildChunks gen doc_id vs).length = vs.length := by
  simp [buildChunks]

/-- Closed-form description of `processGroup`, with the `chunks_to_create`
bookkeeping resolved (`chunks_to_create` has exactly one row per point of
the group, so its length and emptiness match the group's). -/
theorem processGroup_eq (dry_run : Bool) (lookup : String → Option Doc)
    (insert_ok : String → Bool) (gen : Nat → String) (stats : MigrationStats)
    (g : String × List QdrantPoint) :
    processGroup dry_run lookup insert_ok gen stats g
      = match lookup g.1 with
        | none => ((stats.add_skipped g.2.length).add_vectors g.2.length, [])
        | some doc =>
          if dry_run = false ∧ g.2 ≠ [] then
            if insert_ok g.1 = true then
              (((stats.add_chunks g.2.length).add_documents 1).add_vectors g.2.length,
                buildChunks gen doc.id g.2)
            else ((stats.add_error.add_documents 1).add_vectors g.2.length, [])
          else ((stats.add_documents 1).add_vectors g.2.length, []) := by
  unfold processGroup
  cases h : lookup g.1 with
  | none => rfl
  | some doc =>
    simp only [h]
    by_cases hd : dry_run
    · simp [hd]
    · cases hvs : g.2 with
      | nil => simp [hd, hvs, buildChunks]
      | cons a l =>
        have hne2 : buildChunks gen doc.id (a :: l) ≠ [] := by
          intro hcontr
          have := congrArg List.length hcontr
          simp at this
        by_cases hk : insert_ok g.1 <;> simp [hd, hvs, hk, hne2]

theorem processGroups_skipped (dry_run : Bool) (lookup : String → Option Doc)
    (insert_ok : String → Bool) (gen : Nat → String) :
    ∀ (groups : List (String × List QdrantPoint)) (stats : MigrationStats),
      (processGroups dry_run lookup insert_ok gen stats groups).1.skipped_no_doc
        = stats.skipped_no_doc + groupWeight (fun f => (lookup f).isNone) groups := by
  intro groups
  induction groups with
  | nil => intro stats; simp [processGroups]
  | cons g rest ih =>
    intro stats
    simp only [processGroups]
    rw [ih, processGroup_eq]
    cases h : lookup g.1 with
    | none =>
      simp [h, MigrationStats.add_skipped, MigrationStats.add_vectors]
      omega
    | some doc =>
      by_cases hd : dry_run = false ∧ g.2 ≠ []
      · by_cases hk : insert_ok g.1 = true <;>
          simp [h, hd, hk, MigrationStats.add_chunks, MigrationStats.add_documents,
            MigrationStats.add_vectors, MigrationStats.add_error]
      · simp [h, hd, MigrationStats.add_documents, MigrationStats.add_vectors]

theorem processGroups_vectors (dry_run : Bool) (lookup : String → Option Doc)
    (insert_ok : String → Bool) (gen : Nat → String) :
    ∀ (groups : List (String × List QdrantPoint)) (stats : MigrationStats),
      (processGroups dry_run lookup insert_ok gen stats groups).1.vectors_processed
        = stats.vectors_processed + groupWeight (fun _ => true) groups := by
  intro groups
  induction groups with
  | nil => intro stats; simp [processGroups]
  | cons g rest ih =>
    intro stats
    simp only [processGroups]
    rw [ih, processGroup_eq]
    cases h : lookup g.1 with
    | none =>
      simp [h, MigrationStats.add_skipped, MigrationStats.add_vectors]
      omega
    | some doc =>
      by_cases hd : dry_run = false ∧ g.2 ≠ []
      · by_cases hk : insert_ok g.1 = true <;>
          simp [h, hd, hk, MigrationStats.add_chunks, MigrationStats.add_documents,
            MigrationStats.add_vectors, MigrationStats.add_error] <;> omega
      · simp [h, hd, MigrationStats.add_documents, MigrationStats.add_vectors]
        omega

theorem processGroups_chunks_live (lookup : String → Option Doc)
    (insert_ok : String → Bool) (gen : Nat → String) :
    ∀ (groups : List (String × List QdrantPoint)) (stats : MigrationStats),
      (processGroups false lookup insert_ok gen stats groups).1.chunks_created
        = stats.chunks_created
          + groupWeight (fun f => (lookup f).isSome && insert_ok f) groups := by
  intro groups
  induction groups with
  | nil => intro stats; simp [processGroups]
  | cons g rest ih =>
    intro stats
    simp only [processGroups]
    rw [ih, processGroup_eq]
    cases h : lookup g.1 with
    | none =>
      simp [h, MigrationStats.add_skipped, MigrationStats.add_vectors]
    | some doc =>
      cases hvs : g.2 with
      | nil =>
        by_cases hk : insert_ok g.1 = true <;>
          simp [h, hvs, hk, MigrationStats.add_documents, MigrationStats.add_vectors]
      | cons a l =>
        by_cases hk : insert_ok g.1 = true <;>
          simp [h, hvs, hk, MigrationStats.add_chunks, MigrationStats.add_documents,
            MigrationStats.add_vectors, MigrationStats.add_error] <;> omega

theorem processGroups_chunks_dry (lookup : String → Option Doc)
    (insert_ok : String → Bool) (gen : Nat → String) :
    ∀ (groups : List (String × List QdrantPoint)) (stats : MigrationStats),
      (processGroups true lookup insert_ok gen stats groups).1.chunks_created
        = stats.chunks_created := by
  intro groups
  induction groups with
  | nil => intro stats; simp [processGroups]
  | cons g rest ih =>
    intro stats
    simp only [processGroups]
    rw [ih, processGroup_eq]
    cases h : lookup g.1 with
    | none => simp [h, MigrationStats.add_skipped, MigrationStats.add_vectors]
    | some doc => simp [h, MigrationStats.add_documents, MigrationStats.add_vectors]

theorem processGroups_written_dry (lookup : String → Option Doc)
    (insert_ok : String → Bool) (gen : Nat → String) :
    ∀ (groups : List (String × List QdrantPoint)) (stats : MigrationStats),
      (processGroups true lookup insert_ok gen stats groups).2 = [] := by
  intro groups
  induction groups with
  | nil => intro stats; simp [processGroups]
  | cons g rest ih =>
    intro stats
    simp only [processGroups]
    rw [processGroup_eq]
    cases h : lookup g.1 with
    | none => simp [h, ih]
    | some doc => simp [h, ih]

theorem processGroups_documents (dry_run : Bool) (lookup : String → Option Doc)
    (insert_ok : String → Bool) (gen : Nat → String) :
    ∀ (groups : List (String × List QdrantPoint)) (stats : MigrationStats),
      (processGroups dry_run lookup insert_ok gen stats groups).1.documents_processed
        = stats.documents_processed
          + groups.countP (fun g => (lookup g.1).isSome) := by
  intro groups
  induction groups with
  | nil => intro stats; simp [processGroups]
  | cons g rest ih =>
    intro stats
    simp only [processGroups]
    rw [ih, processGroup_eq]
    cases h : lookup g.1 with
    | none =>
      simp [h, MigrationStats.add_skipped, MigrationStats.add_vectors, List.countP_cons]
    | some doc =>
      by_cases hd : dry_run = false ∧ g.2 ≠ []
      · by_cases hk : insert_ok g.1 = true <;>
          simp [h, hd, hk, MigrationStats.add_chunks, MigrationStats.add_documents,
            MigrationStats.add_vectors, MigrationStats.add_error, List.countP_cons] <;> omega
      · simp [h, hd, MigrationStats.add_documents, MigrationStats.add_vectors,
          List.countP_cons]
        omega

theorem processGroups_errors_live (lookup : String → Option Doc)
    (insert_ok : String → Bool) (gen : Nat → String) :
    ∀ (groups : List (String × List QdrantPoint)) (stats : MigrationStats),
      (processGroups false lookup insert_ok gen stats groups).1.errors
        = stats.errors
          + groups.countP (fun g => (lookup g.1).isSome && !insert_ok g.1 && !g.2.isEmpty) := by
  intro groups
  induction groups with
  | nil => intro stats; simp [processGroups]
  | cons g rest ih =>
    intro stats
    simp only [processGroups]
    rw [ih, processGroup_eq]
    cases h : lookup g.1 with
    | none =>
      simp [h, MigrationStats.add_skipped, MigrationStats.add_vectors, List.countP_cons]
    | some doc =>
      cases hvs : g.2 with
      | nil =>
        by_cases hk : insert_ok g.1 = true <;>
          simp [h, hvs, hk, MigrationStats.add_documents, MigrationStats.add_vectors,
            List.countP_cons]
      | cons a l =>
        by_cases hk : insert_ok g.1 = true <;>
          simp [h, hvs, hk, MigrationStats.add_chunks, MigrationStats.add_documents,
            MigrationStats.add_vectors, MigrationStats.add_error, List.countP_cons] <;> omega

theorem processGroups_written_length_live (lookup : String → Option Doc)
    (insert_ok : String → Bool) (gen : Nat → String) :
    ∀ (groups : List (String × List QdrantPoint)) (stats : MigrationStats),
      (processGroups false lookup insert_ok gen stats groups).2.length
        = groupWeight (fun f => (lookup f).isSome && insert_ok f) groups := by
  intro groups
  induction groups with
  | nil => intro stats; simp [processGroups]
  | cons g rest ih =>
    intro stats
    simp only [processGroups]
    rw [processGroup_eq]
    cases h : lookup g.1 with
    | none => simp [h, ih]
    | some doc =>
      cases hvs : g.2 with
      | nil =>
        by_cases hk : insert_ok g.1 = true <;> simp [h, hvs, hk, ih]
      | cons a l =>
        by_cases hk : insert_ok g.1 = true <;> simp [h, hvs, hk, ih]

theorem processBatch_skipped (dry_run : Bool) (lookup : String → Option Doc)
    (insert_ok : String → Bool) (gen : Nat → String) (stats : MigrationStats)
    (points : List QdrantPoint) :
    (processBatch dry_run lookup insert_ok gen stats points).1.skipped_no_doc
      = stats.skipped_no_doc + countResolvableP (fun f => (lookup f).isNone) points := by
  unfold processBatch
  simp [MigrationStats.add_batch_processed, processGroups_skipped,
    groupWeight_groupByFilename]

theorem processBatch_vectors (dry_run : Bool) (lookup : String → Option Doc)
    (insert_ok : String → Bool) (gen : Nat → String) (stats : MigrationStats)
    (points : List QdrantPoint) :
    (processBatch dry_run lookup insert_ok gen stats points).1.vectors_processed
      = stats.vectors_processed + resolvableCount points := by
  unfold processBatch resolvableCount
  simp [MigrationStats.add_batch_processed, processGroups_vectors,
    groupWeight_groupByFilename]

theorem processBatch_chunks_live (lookup : String → Option Doc)
    (insert_ok : String → Bool) (gen : Nat → String) (stats : MigrationStats)
    (points : List QdrantPoint) :
    (processBatch false lookup insert_ok gen stats points).1.chunks_created
      = stats.chunks_created
        + countResolvableP (fun f => (lookup f).isSome && insert_ok f) points := by
  unfold processBatch
  simp [MigrationStats.add_batch_processed, processGroups_chunks_live,
    groupWeight_groupByFilename]

theorem processBatch_chunks_dry (lookup : String → Option Doc)
    (insert_ok : String → Bool) (gen : Nat → String) (stats : MigrationStats)
    (points : List QdrantPoint) :
    (processBatch true lookup insert_ok gen stats points).1.chunks_created
      = stats.chunks_created := by
  unfold processBatch
  simp [MigrationStats.add_batch_processed, processGroups_chunks_dry]

theorem processBatch_written_dry (lookup : String → Option Doc)
    (insert_ok : String → Bool) (gen : Nat → String) (stats : MigrationStats)
    (points : List QdrantPoint) :
    (processBatch true lookup insert_ok gen stats points).2 = [] := by
  unfold processBatch
  simp [processGroups_written_dry]

/-! ### Structural invariants of `groupByFilename` -/

@[simp] theorem keys_nil : keys [] = [] := rfl

@[simp] theorem keys_cons (g : String × List QdrantPoint)
    (rest : List (String × List QdrantPoint)) : keys (g :: rest) = g.1 :: keys rest := rfl

theorem mem_keys_insertGroup (f x : String) (v : QdrantPoint) :
    ∀ groups, x ∈ keys (insertGroup groups f v) ↔ x ∈ keys groups ∨ x = f := by
  intro groups
  induction groups with
  | nil => simp [insertGroup]
  | cons g rest ih =>
    obtain ⟨k, vs⟩ := g
    by_cases h : k = f
    · subst h
      simp [insertGroup]
      tauto
    · simp [insertGroup, h, ih]
      tauto

theorem nodup_keys_insertGroup (f : String) (v : QdrantPoint) :
    ∀ groups, (keys groups).Nodup → (keys (insertGroup groups f v)).Nodup := by
  intro groups
  induction groups with
  | nil => intro _; simp [insertGroup]
  | cons g rest ih =>
    obtain ⟨k, vs⟩ := g
    intro hnd
    rw [keys_cons, List.nodup_cons] at hnd
    by_cases h : k = f
    · subst h
      simpa [insertGroup] using hnd
    · rw [insertGroup]
      simp only [if_neg h, keys_cons, List.nodup_cons]
      refine ⟨?_, ih hnd.2⟩
      intro hk
      rw [mem_keys_insertGroup] at hk
      rcases hk with hk | hk
      · exact hnd.1 hk
      · exact h hk

theorem nodup_keys_groupByFilename (points : List QdrantPoint) :
    (keys (groupByFilename points)).Nodup := by
  have main : ∀ (pts : List QdrantPoint) (acc : List (String × List QdrantPoint)),
      (keys acc).Nodup → (keys (pts.foldl groupStep acc)).Nodup := by
    intro pts
    induction pts with
    | nil => intro acc h; exact h
    | cons v rest ih =>
      intro acc h
      rw [List.foldl_cons]
      apply ih
      unfold groupStep
      cases resolvedFilename v.payload with
      | none => exact h
      | some f => exact nodup_keys_insertGroup f v acc h
  exact main points [] (by simp)

theorem ne_nil_insertGroup (f : String) (v : QdrantPoint) :
    ∀ groups, (∀ g ∈ groups, g.2 ≠ []) → ∀ g ∈ insertGroup groups f v, g.2 ≠ [] := by
  intro groups
  induction groups with
  | nil =>
    intro _ g hg
    simp [insertGroup] at hg
    subst hg
    simp
  | cons gr rest ih =>
    obtain ⟨k, vs⟩ := gr
    intro h g hg
    rw [insertGroup] at hg
    by_cases hk : k = f
    · rw [if_pos hk] at hg
      rcases List.mem_cons.mp hg with hg1 | hg2
      · subst hg1; simp
      · exact h g (List.mem_cons_of_mem _ hg2)
    · rw [if_neg hk] at hg
      rcases List.mem_cons.mp hg with hg1 | hg2
      · subst hg1; exact h (k, vs) (List.mem_cons_self _ _)
      · exact ih (fun g' hg' => h g' (List.mem_cons_of_mem _ hg')) g hg2

theorem groups_ne_nil (points : List QdrantPoint) :
    ∀ g ∈ groupByFilename points, g.2 ≠ [] := by
  have main : ∀ (pts : List QdrantPoint) (acc : List (String × List QdrantPoint)),
      (∀ g ∈ acc, g.2 ≠ []) → ∀ g ∈ pts.foldl groupStep acc, g.2 ≠ [] := by
    intro pts
    induction pts with
    | nil => intro acc h; exact h
    | cons v rest ih =>
      intro acc h
      rw [List.foldl_cons]
      apply ih
      unfold groupStep
      cases resolvedFilename v.payload with
      | none => exact h
      | some f => exact ne_nil_insertGroup f v acc h
  exact main points [] (by simp)

theorem groupWeight_eq_zero (p : String → Bool) :
    ∀ groups, (∀ g ∈ groups, p g.1 = false) → groupWeight p groups = 0 := by
  intro groups
  induction groups with
  | nil => intro _; simp
  | cons g rest ih =>
    intro h
    rw [groupWeight_cons, h g (by simp), ih (fun g hg => h g (by simp [hg]))]
    simp

theorem groupWeight_congr (p q : String → Bool) :
    ∀ groups, (∀ g ∈ groups, p g.1 = q g.1) →
      groupWeight p groups = groupWeight q groups := by
  intro groups
  induction groups with
  | nil => intro _; rfl
  | cons g rest ih =>
    intro h
    rw [groupWeight_cons, groupWeight_cons, h g (by simp),
      ih (fun g hg => h g (by simp [hg]))]

theorem countP_congr_mem (p q : (String × List QdrantPoint) → Bool) :
    ∀ groups : List (String × List QdrantPoint), (∀ g ∈ groups, p g = q g) →
      groups.countP p = groups.countP q := by
  intro groups
  induction groups with
  | nil => intro _; rfl
  | cons g rest ih =>
    intro h
    rw [List.countP_cons, List.countP_cons, h g (by simp),
      ih (fun g hg => h g (by simp [hg]))]

theorem groupWeight_key (f : String) (vs : List QdrantPoint) :
    ∀ groups, (keys groups).Nodup → (f, vs) ∈ groups →
      groupWeight (fun k => k == f) groups = vs.length := by
  intro groups
  induction groups with
  | nil => intro _ h; simp at h
  | cons g rest ih =>
    intro hnd hmem
    rw [keys_cons, List.nodup_cons] at hnd
    rcases List.mem_cons.mp hmem with hg | hg
    · obtain ⟨hnd1, hnd2⟩ := hnd
      rw [← hg] at hnd1 ⊢
      have hzero : groupWeight (fun k => k == f) rest = 0 := by
        apply groupWeight_eq_zero
        intro g' hg'
        have hfmem : g'.1 ∈ keys rest := List.mem_map_of_mem Prod.fst hg'
        rw [beq_eq_false_iff_ne]
        intro hcontr
        apply hnd1
        rwa [hcontr] at hfmem
      rw [groupWeight_cons, hzero]
      simp
    · have hne : g.1 ≠ f := by
        intro hcontr
        apply hnd.1
        have : f ∈ keys rest := List.mem_map_of_mem Prod.fst hg
        rwa [hcontr]
      rw [groupWeight_cons, if_neg (by simpa using hne), ih hnd.2 hg]
      simp

theorem countP_key (f : String) (vs : List QdrantPoint) :
    ∀ groups, (keys groups).Nodup → (f, vs) ∈ groups →
      groups.countP (fun g => g.1 == f) = 1 := by
  intro groups
  induction groups with
  | nil => intro _ h; simp at h
  | cons g rest ih =>
    intro hnd hmem
    rw [keys_cons, List.nodup_cons] at hnd
    rcases List.mem_cons.mp hmem with hg | hg
    · obtain ⟨hnd1, hnd2⟩ := hnd
      rw [← hg] at hnd1 ⊢
      have hzero : rest.countP (fun g => g.1 == f) = 0 := by
        rw [List.countP_eq_zero]
        intro g' hg'
        have hfmem : g'.1 ∈ keys rest := List.mem_map_of_mem Prod.fst hg'
        simp only [beq_iff_eq]
        intro hcontr
        apply hnd1
        rwa [hcontr] at hfmem
      rw [List.countP_cons, hzero]
      simp
    · have hne : g.1 ≠ f := by
        intro hcontr
        apply hnd.1
        have : f ∈ keys rest := List.mem_map_of_mem Prod.fst hg
        rwa [hcontr]
      rw [List.countP_cons, if_neg (by simpa using hne), ih hnd.2 hg]

/-! ### Producer, worker and scroll lemmas -/

@[simp] theorem sentinelCount_nil : sentinelCount [] = 0 := rfl

theorem sentinelCount_append (a b : List QItem) :
    sentinelCount (a ++ b) = sentinelCount a + sentinelCount b := by
  simp [sentinelCount, List.countP_append]

theorem sentinelCount_replicate (n : Nat) :
    sentinelCount (List.replicate n QItem.sentinel) = n := by
  induction n with
  | zero => rfl
  | succ k ih =>
    rw [List.replicate_succ]
    simp only [sentinelCount, List.countP_cons] at *
    simp [QItem.isSentinel, ih]

theorem producerLoop_no_sentinel
    (fetch : Nat → Except Unit (List QdrantPoint × Option String)) :
    ∀ (fuel call : Nat), sentinelCount (producerLoop fetch fuel call).enqueued = 0 := by
  intro fuel
  induction fuel with
  | zero => intro call; rfl
  | succ n ih =>
    intro call
    rw [producerLoop]
    cases hf : fetch call with
    | error e => simp [sentinelCount]
    | ok pr =>
      obtain ⟨points, next⟩ := pr
      by_cases hp : points.isEmpty <;> cases next <;>
        simp [hp, sentinelCount, List.countP_cons, QItem.isSentinel] <;>
        simpa [sentinelCount] using ih (call + 1)

theorem producer_thread_sentinelCount
    (fetch : Nat → Except Unit (List QdrantPoint × Option String)) (fuel wc : Nat) :
    sentinelCount (producer_thread fetch fuel wc).enqueued = wc := by
  unfold producer_thread
  simp [sentinelCount_append, producerLoop_no_sentinel, sentinelCount_replicate]

theorem worker_thread_one_sentinel (dry_run : Bool) (lookup : String → Option Doc)
    (insert_ok : String → Bool) (gen : Nat → String) :
    ∀ (items : List QItem) (stats : MigrationStats), QItem.sentinel ∈ items →
      (worker_thread dry_run lookup insert_ok gen stats items).2.2 = 1 := by
  intro items
  induction items with
  | nil => intro stats h; simp at h
  | cons i rest ih =>
    intro stats h
    cases i with
    | sentinel => rfl
    | batch n pts =>
      have hmem : QItem.sentinel ∈ rest := by
        rcases List.mem_cons.mp h with h1 | h1
        · exact absurd h1 (by simp)
        · exact h1
      simp only [worker_thread]
      exact ih _ hmem

theorem worker_thread_invariant (lookup : String → Option Doc) (gen : Nat → String) :
    ∀ (items : List QItem) (stats : MigrationStats),
      stats.chunks_created + stats.skipped_no_doc = stats.vectors_processed →
      (worker_thread false lookup (fun _ => true) gen stats items).1.chunks_created
          + (worker_thread false lookup (fun _ => true) gen stats items).1.skipped_no_doc
        = (worker_thread false lookup (fun _ => true) gen stats items).1.vectors_processed := by
  intro items
  induction items with
  | nil => intro stats h; simpa [worker_thread] using h
  | cons i rest ih =>
    intro stats h
    cases i with
    | sentinel => simpa [worker_thread] using h
    | batch n pts =>
      simp only [worker_thread]
      apply ih
      rw [processBatch_chunks_live, processBatch_skipped, processBatch_vectors]
      have hsplit : countResolvableP (fun f => (lookup f).isNone) pts
          + countResolvableP (fun f => (lookup f).isSome) pts = resolvableCount pts := by
        have hbase := countResolvableP_not_add (fun f => (lookup f).isSome) pts
        rwa [countResolvableP_congr (fun f => !(lookup f).isSome)
          (fun f => (lookup f).isNone) (fun f => by cases lookup f <;> simp) pts] at hbase
      simp only [Bool.and_true]
      omega

theorem scrollGo_all_fail (outcome : Nat → FetchAttempt) (retries : Nat)
    (hfail : ∀ i, i < retries → outcome i = FetchAttempt.failure) :
    ∀ (n attempt : Nat), attempt + n + 1 = retries →
      scrollGo outcome retries (n + 1) attempt
        = { result := Except.error (), sleeps := List.range' (attempt + 1) n,
            attempts_used := n + 1 } := by
  intro n
  induction n with
  | zero =>
    intro attempt hsum
    rw [scrollGo, hfail attempt (by omega), if_pos (by omega)]
    simp
  | succ m ih =>
    intro attempt hsum
    rw [scrollGo, hfail attempt (by omega), if_neg (by omega),
      ih (attempt + 1) (by omega), List.range'_succ]
    simp [BASE_DELAY]

theorem qdrant_scroll_all_fail (outcome : Nat → FetchAttempt) (retries : Nat)
    (hr : 1 ≤ retries) (hfail : ∀ i, i < retries → outcome i = FetchAttempt.failure) :
    qdrant_scroll outcome retries
      = { result := Except.error (), sleeps := List.range' 1 (retries - 1),
          attempts_used := retries } := by
  unfold qdrant_scroll
  obtain ⟨m, rfl⟩ : ∃ m, retries = m + 1 := ⟨retries - 1, by omega⟩
  rw [scrollGo_all_fail outcome (m + 1) hfail m 0 (by omega)]
  simp

theorem producer_thread_fetch_error
    (fetch : Nat → Except Unit (List QdrantPoint × Option String))
    (hf : fetch 0 = Except.error ()) (fuel : Nat) (hfuel : 1 ≤ fuel) (wc : Nat) :
    producer_thread fetch fuel wc
      = { enqueued := List.replicate wc QItem.sentinel, errors_added := 1,
          logs := ["Producer error"] } := by
  cases fuel with
  | zero => omega
  | succ n =>
    unfold producer_thread
    rw [producerLoop, hf]
    simp

theorem processBatch_errors_live (lookup : String → Option Doc)
    (insert_ok : String → Bool) (gen : Nat → String) (stats : MigrationStats)
    (points : List QdrantPoint) :
    (processBatch false lookup insert_ok gen stats points).1.errors
      = stats.errors
        + (groupByFilename points).countP
            (fun g => (lookup g.1).isSome && !insert_ok g.1 && !g.2.isEmpty) := by
  unfold processBatch
  simp [MigrationStats.add_batch_processed, processGroups_errors_live]

theorem processBatch_documents (dry_run : Bool) (lookup : String → Option Doc)
    (insert_ok : String → Bool) (gen : Nat → String) (stats : MigrationStats)
    (points : List QdrantPoint) :
    (processBatch dry_run lookup insert_ok gen stats points).1.documents_processed
      = stats.documents_processed
        + (groupByFilename points).countP (fun g => (lookup g.1).isSome) := by
  unfold processBatch
  simp [MigrationStats.add_batch_processed, processGroups_documents]

theorem processBatch_written_length_live (lookup : String → Option Doc)
    (insert_ok : String → Bool) (gen : Nat → String) (stats : MigrationStats)
    (points : List QdrantPoint) :
    (processBatch false lookup insert_ok gen stats points).2.length
      = groupWeight (fun f => (lookup f).isSome && insert_ok f)
          (groupByFilename points) := by
  unfold processBatch
  simp [processGroups_written_length_live]

theorem groupWeight_and_split (p q : String → Bool) :
    ∀ groups : List (String × List QdrantPoint),
      groupWeight (fun k => p k && !q k) groups + groupWeight (fun k => p k && q k) groups
        = groupWeight p groups := by
  intro groups
  induction groups with
  | nil => rfl
  | cons g rest ih =>
    rw [groupWeight_cons, groupWeight_cons, groupWeight_cons]
    by_cases hp : p g.1 <;> by_cases hq : q g.1 <;> simp [hp, hq] <;> omega

theorem processBatch_chunks_live_gw (lookup : String → Option Doc)
    (insert_ok : String → Bool) (gen : Nat → String) (stats : MigrationStats)
    (points : List QdrantPoint) :
    (processBatch false lookup insert_ok gen stats points).1.chunks_created
      = stats.chunks_created
        + groupWeight (fun f => (lookup f).isSome && insert_ok f)
            (groupByFilename points) := by
  rw [processBatch_chunks_live, groupWeight_groupByFilename]

/-! ## Claims -/

/-- C1: for every producer run with `workerCount ≥ 1`, whether the
pagination loop exits normally or via a fetch error, exactly `workerCount`
sentinel values are enqueued on the batch queue (the loop body never
enqueues a sentinel; the `finally` block enqueues exactly one per worker),
and every worker whose dequeue stream contains a sentinel terminates after
consuming exactly one sentinel. -/
theorem c1_sentinel_completeness
    (fetch : Nat → Except Unit (List QdrantPoint × Option String)) (fuel wc : Nat)
    (hwc : 1 ≤ wc) (dry_run : Bool) (lookup : String → Option Doc)
    (insert_ok : String → Bool) (gen : Nat → String) (stats : MigrationStats)
    (items : List QItem) (hmem : QItem.sentinel ∈ items) :
    sentinelCount (producer_thread fetch fuel wc).enqueued = wc ∧
    (worker_thread dry_run lookup insert_ok gen stats items).2.2 = 1 :=
  ⟨producer_thread_sentinelCount fetch fuel wc,
   worker_thread_one_sentinel dry_run lookup insert_ok gen items stats hmem⟩

/-- Witness for C1 at a concrete run: an erroring fetch with the script's
20 workers, and a worker stream holding one batch then a sentinel. -/
theorem c1_sentinel_completeness_witness :
    sentinelCount (producer_thread (fun _ => Except.error ()) 1 NUM_THREADS).enqueued
        = NUM_THREADS ∧
    (worker_thread false lookupAll (fun _ => true) (fun _ => "c") {}
        [QItem.batch 1 [pA], QItem.sentinel]).2.2 = 1 :=
  c1_sentinel_completeness (fun _ => Except.error ()) 1 NUM_THREADS (by decide)
    false lookupAll (fun _ => true) (fun _ => "c") {}
    [QItem.batch 1 [pA], QItem.sentinel] (by decide)

/-- C2 counterexample: a batch holding one record with no resolvable
filename.  The worker drops it in the grouping loop without counting it,
so `skippedNoParent` stays 0, no record matches, and
`skipped + matched = 0 ≠ 1 = totalRecordsInBatch`. -/
theorem c2_cex :
    ¬ ((processBatch false (fun _ => none) (fun _ => true) (fun _ => "c") {}
          [pNoName]).1.skipped_no_doc
        + matchedRecordCount (fun _ => none) [pNoName]
        = ([pNoName] : List QdrantPoint).length) := by
  decide

/-- C2 amended: a record with no resolvable filename is dropped without
being counted anywhere, so for every batch `skippedNoParent` incremented
for the batch plus the records whose filename matched a parent equals the
number of records *with a resolvable filename*, not the total batch
size. -/
theorem c2_amended_group_accounting (dry_run : Bool) (lookup : String → Option Doc)
    (insert_ok : String → Bool) (gen : Nat → String) (stats : MigrationStats)
    (points : List QdrantPoint) :
    (processBatch dry_run lookup insert_ok gen stats points).1.skipped_no_doc
        + matchedRecordCount lookup points
      = stats.skipped_no_doc + resolvableCount points := by
  rw [processBatch_skipped]
  unfold matchedRecordCount
  have hbase := countResolvableP_not_add (fun f => (lookup f).isSome) points
  rw [countResolvableP_congr (fun f => !(lookup f).isSome) (fun f => (lookup f).isNone)
    (fun f => by cases lookup f <;> simp) points] at hbase
  omega

/-- C7: on a run that completes with every group's insert succeeding in
live mode, the final counters satisfy
`chunksCreated + skippedNoParent = vectorsSeen` (duplicate-insert no-ops
count as created — the model's successful insert commits all rows of the
group and counts the full group size, exactly as the code counts
`len(chunks_to_create)` after `ON CONFLICT DO NOTHING`). -/
theorem c7_final_reconciliation (lookup : String → Option Doc) (gen : Nat → String)
    (items : List QItem) :
    (worker_thread false lookup (fun _ => true) gen {} items).1.chunks_created
        + (worker_thread false lookup (fun _ => true) gen {} items).1.skipped_no_doc
      = (worker_thread false lookup (fun _ => true) gen {} items).1.vectors_processed :=
  worker_thread_invariant lookup gen items {} rfl

/-- C9: every built ChildRow has `startPage = endPage`, both equal to the
record's single `page_number` payload value (`none` when absent); no row
spans a page range. -/
theorem c9_start_end_page (chunk_id doc_id : String) (v : QdrantPoint) :
    (buildChunk chunk_id doc_id v).startPage = (buildChunk chunk_id doc_id v).endPage ∧
    (buildChunk chunk_id doc_id v).startPage = v.payload.page_number :=
  ⟨rfl, rfl⟩

/-- C10: a record with a resolvable filename but missing payload fields is
defaulted, not rejected: missing `chunk_index` defaults to 0, missing
`combined` content defaults to `""` (token estimate 0), and the record
still produces a ChildRow — its matched group commits one row, increments
`chunksCreated`, and touches neither `skippedNoParent` nor `errors`. -/
theorem c10_missing_fields_defaulted (chunk_id doc_id f : String) (v : QdrantPoint)
    (hidx : v.payload.chunk_index = none) (hcontent : v.payload.combined = none)
    (lookup : String → Option Doc) (insert_ok : String → Bool) (gen : Nat → String)
    (stats : MigrationStats) (doc : Doc) (hdoc : lookup f = some doc)
    (hok : insert_ok f = true) :
    (buildChunk chunk_id doc_id v).chunkIndex = 0 ∧
    (buildChunk chunk_id doc_id v).content = "" ∧
    (buildChunk chunk_id doc_id v).tokenCount = 0 ∧
    (processGroup false lookup insert_ok gen stats (f, [v])).2.length = 1 ∧
    (processGroup false lookup insert_ok gen stats (f, [v])).1.skipped_no_doc
        = stats.skipped_no_doc ∧
    (processGroup false lookup insert_ok gen stats (f, [v])).1.errors = stats.errors ∧
    (processGroup false lookup insert_ok gen stats (f, [v])).1.chunks_created
        = stats.chunks_created + 1 := by
  have hpg : processGroup false lookup insert_ok gen stats (f, [v])
      = (((stats.add_chunks 1).add_documents 1).add_vectors 1,
          buildChunks gen doc.id [v]) := by
    rw [processGroup_eq]
    simp [hdoc, hok]
  have htok : (buildChunk chunk_id doc_id v).tokenCount
      = tokenCount (v.payload.combined.getD "") := rfl
  refine ⟨by simp [buildChunk, hidx], by simp [buildChunk, hcontent], ?_, ?_, ?_, ?_, ?_⟩
  · rw [htok, hcontent]
    decide
  · simp [hpg, buildChunks]
  · simp [hpg, MigrationStats.add_chunks, MigrationStats.add_documents,
      MigrationStats.add_vectors]
  · simp [hpg, MigrationStats.add_chunks, MigrationStats.add_documents,
      MigrationStats.add_vectors]
  · simp [hpg, MigrationStats.add_chunks, MigrationStats.add_documents,
      MigrationStats.add_vectors]

/-- Witness for C10 at a concrete record (`pDefaults`, missing both
`chunk_index` and `combined`) and a matching parent. -/
theorem c10_missing_fields_defaulted_witness :
    (buildChunk "c1" "d1" pDefaults).chunkIndex = 0 ∧
    (buildChunk "c1" "d1" pDefaults).content = "" ∧
    (buildChunk "c1" "d1" pDefaults).tokenCount = 0 ∧
    (processGroup false lookupAll (fun _ => true) (fun _ => "cid") {}
        ("c.pdf", [pDefaults])).2.length = 1 ∧
    (processGroup false lookupAll (fun _ => true) (fun _ => "cid") {}
        ("c.pdf", [pDefaults])).1.skipped_no_doc
      = ({} : MigrationStats).skipped_no_doc ∧
    (processGroup false lookupAll (fun _ => true) (fun _ => "cid") {}
        ("c.pdf", [pDefaults])).1.errors = ({} : MigrationStats).errors ∧
    (processGroup false lookupAll (fun _ => true) (fun _ => "cid") {}
        ("c.pdf", [pDefaults])).1.chunks_created
      = ({} : MigrationStats).chunks_created + 1 :=
  c10_missing_fields_defaulted "c1" "d1" "c.pdf" pDefaults rfl rfl lookupAll
    (fun _ => true) (fun _ => "cid") {}
    ⟨"doc_" ++ "c.pdf", "c.pdf", "cmhxblm5p00018001iwvrwdxq"⟩ rfl rfl

/-- C3: when the idempotent insert for one filename group fails
unexpectedly (here the group keyed `f`; every other group's insert
succeeds), the group's transaction commits nothing (full rollback, no
partial commit), `errors` is incremented by exactly 1, `chunksCreated` is
short by exactly that group's size relative to the all-success run, and
the remaining groups of the same batch are processed exactly as in the
all-success run: identical skipped/vectors/documents counters, and the
committed rows short by exactly the failed group's rows. -/
theorem c3_group_failure_isolation (lookup : String → Option Doc) (gen : Nat → String)
    (stats : MigrationStats) (points : List QdrantPoint) (f : String) (doc : Doc)
    (vs : List QdrantPoint) (hmem : (f, vs) ∈ groupByFilename points)
    (hdoc : lookup f = some doc) :
    (processGroup false lookup (fun k => k != f) gen stats (f, vs)).2 = [] ∧
    (processBatch false lookup (fun k => k != f) gen stats points).1.errors
        = stats.errors + 1 ∧
    (processBatch false lookup (fun k => k != f) gen stats points).1.chunks_created
          + vs.length
        = (processBatch false lookup (fun _ => true) gen stats points).1.chunks_created ∧
    (processBatch false lookup (fun k => k != f) gen stats points).2.length + vs.length
        = (processBatch false lookup (fun _ => true) gen stats points).2.length ∧
    (processBatch false lookup (fun k => k != f) gen stats points).1.skipped_no_doc
        = (processBatch false lookup (fun _ => true) gen stats points).1.skipped_no_doc ∧
    (processBatch false lookup (fun k => k != f) gen stats points).1.vectors_processed
        = (processBatch false lookup (fun _ => true) gen stats
            points).1.vectors_processed ∧
    (processBatch false lookup (fun k => k != f) gen stats points).1.documents_processed
        = (processBatch false lookup (fun _ => true) gen stats
            points).1.documents_processed := by
  have hnd := nodup_keys_groupByFilename points
  have hnn := groups_ne_nil points
  have hcongr_key : ∀ g ∈ groupByFilename points,
      ((lookup g.1).isSome && (g.1 == f)) = (g.1 == f) := by
    intro g _
    by_cases hgf : g.1 = f
    · rw [hgf, hdoc]; simp
    · simp [hgf]
  have hkey : groupWeight (fun k => (lookup k).isSome && (k == f)) (groupByFilename points)
      = vs.length := by
    rw [groupWeight_congr (fun k => (lookup k).isSome && (k == f)) (fun k => k == f)
      (groupByFilename points) hcongr_key]
    exact groupWeight_key f vs (groupByFilename points) hnd hmem
  have hsplit := groupWeight_and_split (fun k => (lookup k).isSome) (fun k => k == f)
    (groupByFilename points)
  have hbad_eq : groupWeight (fun k => (lookup k).isSome && (k != f))
        (groupByFilename points)
      = groupWeight (fun k => (lookup k).isSome && !(k == f)) (groupByFilename points) := by
    apply groupWeight_congr
    intro g _
    simp [bne]
  refine ⟨?_, ?_, ?_, ?_, ?_, ?_, ?_⟩
  · rw [processGroup_eq]
    cases hvs : vs with
    | nil => simp [hdoc]
    | cons a l => simp [hdoc]
  · simp only [processBatch_errors_live]
    have hpred : ∀ g ∈ groupByFilename points,
        ((lookup g.1).isSome && !(g.1 != f) && !g.2.isEmpty) = (g.1 == f) := by
      intro g hg
      by_cases hgf : g.1 = f
      · have hne := hnn g hg
        rw [hgf, hdoc]
        cases h2 : g.2 with
        | nil => exact absurd h2 hne
        | cons a l => simp [bne]
      · have hfalse : (g.1 == f) = false := by
          rw [beq_eq_false_iff_ne]
          exact hgf
        simp [bne, hfalse]
    rw [countP_congr_mem _ _ (groupByFilename points) hpred,
      countP_key f vs (groupByFilename points) hnd hmem]
  · simp only [processBatch_chunks_live_gw, Bool.and_true]
    rw [hbad_eq]
    omega
  · simp only [processBatch_written_length_live, Bool.and_true]
    rw [hbad_eq]
    omega
  · simp only [processBatch_skipped]
  · simp only [processBatch_vectors]
  · simp only [processBatch_documents]

/-- Witness for C3 at a concrete two-group batch where the insert for the
`a.pdf` group fails and everything matches a parent. -/
theorem c3_group_failure_isolation_witness :
    (processGroup false lookupAll (fun k => k != "a.pdf") (fun _ => "cid") {}
        ("a.pdf", [pA])).2 = [] ∧
    (processBatch false lookupAll (fun k => k != "a.pdf") (fun _ => "cid") {}
        [pA, pB]).1.errors = ({} : MigrationStats).errors + 1 ∧
    (processBatch false lookupAll (fun k => k != "a.pdf") (fun _ => "cid") {}
          [pA, pB]).1.chunks_created + ([pA] : List QdrantPoint).length
        = (processBatch false lookupAll (fun _ => true) (fun _ => "cid") {}
            [pA, pB]).1.chunks_created ∧
    (processBatch false lookupAll (fun k => k != "a.pdf") (fun _ => "cid") {}
          [pA, pB]).2.length + ([pA] : List QdrantPoint).length
        = (processBatch false lookupAll (fun _ => true) (fun _ => "cid") {}
            [pA, pB]).2.length ∧
    (processBatch false lookupAll (fun k => k != "a.pdf") (fun _ => "cid") {}
          [pA, pB]).1.skipped_no_doc
        = (processBatch false lookupAll (fun _ => true) (fun _ => "cid") {}
            [pA, pB]).1.skipped_no_doc ∧
    (processBatch false lookupAll (fun k => k != "a.pdf") (fun _ => "cid") {}
          [pA, pB]).1.vectors_processed
        = (processBatch false lookupAll (fun _ => true) (fun _ => "cid") {}
            [pA, pB]).1.vectors_processed ∧
    (processBatch false lookupAll (fun k => k != "a.pdf") (fun _ => "cid") {}
          [pA, pB]).1.documents_processed
        = (processBatch false lookupAll (fun _ => true) (fun _ => "cid") {}
            [pA, pB]).1.documents_processed :=
  c3_group_failure_isolation lookupAll (fun _ => "cid") {} [pA, pB] "a.pdf"
    ⟨"doc_" ++ "a.pdf", "a.pdf", "cmhxblm5p00018001iwvrwdxq"⟩ [pA] (by decide) rfl

/-- C4 counterexample: dry-run batch holding the single matched record
`pA`.  No row is written (true), but contrary to the claim
`chunksCreated` is NOT advanced: `stats.add_chunks` sits inside the
`if not DRY_RUN` block, so the counter stays 0 instead of becoming 1. -/
theorem c4_cex :
    (processBatch true lookupAll (fun _ => true) (fun _ => "cid") {} [pA]).2 = [] ∧
    ¬ ((processBatch true lookupAll (fun _ => true) (fun _ => "cid") {}
          [pA]).1.chunks_created
        = ({} : MigrationStats).chunks_created + 1) := by
  decide

/-- C4 amended: in dry-run mode no destination write is performed and
`chunksCreated` is NOT incremented (it stays unchanged, the increment
being inside the live-mode insert block), while the final console record
does state that no changes were made. -/
theorem c4_amended_dry_run (lookup : String → Option Doc) (insert_ok : String → Bool)
    (gen : Nat → String) (stats : MigrationStats) (points : List QdrantPoint)
    (inp : String) (fetch : Nat → Except Unit (List QdrantPoint × Option String))
    (fuel : Nat) :
    (processBatch true lookup insert_ok gen stats points).2 = [] ∧
    (processBatch true lookup insert_ok gen stats points).1.chunks_created
        = stats.chunks_created ∧
    (main true inp fetch fuel lookup insert_ok gen).final_note
        = some "This was a DRY RUN. No changes were made." := by
  refine ⟨processBatch_written_dry lookup insert_ok gen stats points,
    processBatch_chunks_dry lookup insert_ok gen stats points, ?_⟩
  unfold main
  simp [confirmInput, dryRunNote]

/-- C5 counterexample: for the record `pA` with three-word content
`"a b c"`, the stored estimate is `int(3 * 1.3) = 3` (truncation) while
the claimed `round(3 × 1.3) = 4`. -/
theorem c5_cex :
    ((buildChunk "c1" "d1" pA).tokenCount : ℤ)
      ≠ tokenCountSpecRound (pA.payload.combined.getD "") := by
  have h1 : (buildChunk "c1" "d1" pA).tokenCount = 3 := by decide
  have h2 : tokenCountSpecRound (pA.payload.combined.getD "") = 4 := by
    have hw : wordCount (pA.payload.combined.getD "") = 3 := by decide
    unfold tokenCountSpecRound
    rw [hw]
    norm_num [round_eq]
  rw [h1, h2]
  decide

/-- C5 amended: the stored token-count estimate equals
`⌊wordCount(content) × 1.3⌋` — truncation, as Python `int()`, not
rounding. -/
theorem c5_amended_truncation (chunk_id doc_id : String) (v : QdrantPoint) :
    (buildChunk chunk_id doc_id v).tokenCount
      = Nat.floor ((wordCount (v.payload.combined.getD "") : ℚ) * (13 / 10)) := by
  have h : (buildChunk chunk_id doc_id v).tokenCount
      = 13 * wordCount (v.payload.combined.getD "") / 10 := rfl
  rw [h]
  generalize wordCount (v.payload.combined.getD "") = n
  rw [show ((n : ℚ) * (13 / 10)) = ((13 * n : ℕ) : ℚ) / ((10 : ℕ) : ℚ) by push_cast; ring]
  rw [Nat.floor_div_nat, Nat.floor_natCast]

/-- C6: a page fetch with every attempt failing makes exactly `retries`
(= `MAX_RETRIES`) attempts in total, sleeping `k × BASE_DELAY` seconds
after the `k`-th failed attempt (linear backoff `1, 2, …`), and after the
final attempt the error propagates; a producer whose fetch returns that
error logs the failure, counts one error, stops its loop (enqueueing no
batch) and still delivers every sentinel instead of crashing. -/
theorem c6_retry_backoff_propagation (outcome : Nat → FetchAttempt)
    (retries fuel wc : Nat) (hr : 1 ≤ retries) (hfuel : 1 ≤ fuel)
    (hfail : ∀ i, i < retries → outcome i = FetchAttempt.failure) :
    (qdrant_scroll outcome retries).attempts_used = retries ∧
    (qdrant_scroll outcome retries).sleeps
        = (List.range' 1 (retries - 1)).map (fun k => k * BASE_DELAY) ∧
    (qdrant_scroll outcome retries).result = Except.error () ∧
    producer_thread (fun _ => (qdrant_scroll outcome retries).result) fuel wc
        = { enqueued := List.replicate wc QItem.sentinel, errors_added := 1,
            logs := ["Producer error"] } := by
  have hs := qdrant_scroll_all_fail outcome retries hr hfail
  refine ⟨by rw [hs], ?_, by rw [hs], ?_⟩
  · rw [hs]
    simp [BASE_DELAY]
  · exact producer_thread_fetch_error _ (by rw [hs]) fuel hfuel wc

/-- Witness for C6 at the script's configuration: `MAX_RETRIES = 3`
all-failing attempts and the 20-worker producer. -/
theorem c6_retry_backoff_propagation_witness :
    (qdrant_scroll (fun _ => FetchAttempt.failure) MAX_RETRIES).attempts_used
        = MAX_RETRIES ∧
    (qdrant_scroll (fun _ => FetchAttempt.failure) MAX_RETRIES).sleeps
        = (List.range' 1 (MAX_RETRIES - 1)).map (fun k => k * BASE_DELAY) ∧
    (qdrant_scroll (fun _ => FetchAttempt.failure) MAX_RETRIES).result
        = Except.error () ∧
    producer_thread
        (fun _ => (qdrant_scroll (fun _ => FetchAttempt.failure) MAX_RETRIES).result)
        1 NUM_THREADS
      = { enqueued := List.replicate NUM_THREADS QItem.sentinel, errors_added := 1,
          logs := ["Producer error"] } :=
  c6_retry_backoff_propagation (fun _ => FetchAttempt.failure) MAX_RETRIES 1 NUM_THREADS
    (by decide) (by decide) (fun _ _ => rfl)

/-- C8 counterexample: the input `"YES"` is not the literal `"yes"`, yet
live-mode `main` proceeds (21 threads started) because the code compares
`response.lower() != 'yes'`, i.e. case-insensitively. -/
theorem c8_cex :
    "YES" ≠ "yes" ∧
    (main false "YES" (fun _ => Except.error ()) 1 (fun _ => none) (fun _ => true)
        (fun _ => "cid")).threads_started ≠ 0 := by
  decide

/-- C8 amended: in live mode, for every input whose *lowercase* is not
`"yes"`, `main` aborts with exit code 0 and no side effects (no threads
started, no destination writes); inputs whose lowercase equals `"yes"`
(such as `"YES"`) proceed. -/
theorem c8_amended_case_insensitive (inp : String) (h : strLower inp ≠ "yes")
    (fetch : Nat → Except Unit (List QdrantPoint × Option String)) (fuel : Nat)
    (lookup : String → Option Doc) (insert_ok : String → Bool) (gen : Nat → String) :
    main false inp fetch fuel lookup insert_ok gen
      = { exit_code := 0, threads_started := 0, written := [], final_note := none } := by
  unfold main confirmInput
  have hb : (strLower inp == "yes") = false := by
    rw [beq_eq_false_iff_ne]
    exact h
  simp [hb]

/-- Witness for C8 amended at input `"no"`. -/
theorem c8_amended_case_insensitive_witness :
    main false "no" (fun _ => Except.error ()) 1 (fun _ => none) (fun _ => true)
        (fun _ => "cid")
      = { exit_code := 0, threads_started := 0, written := [], final_note := none } :=
  c8_amended_case_insensitive "no" (by decide) (fun _ => Except.error ()) 1
    (fun _ => none) (fun _ => true) (fun _ => "cid")

end MigrateQdrantChunks
